import Mathlib

/-!
Verification of the speicher library (bloodmagesoftware/speicher) against its
natural-language specification.  The Go source is shallowly embedded: Go maps
`map[string]V` become functions `String → Option V`, a Go pointer `*T` stored
in a map becomes `Option T` (a `nil` pointer is `none`), fallible operations
return `Except`/`Option`, and a Go panic is modelled as `Option.none` in a
step function.  Each definition is translated from the corresponding function
of the source (`state.go`, `list.go`, `clone/clone.go`); doc comments name
the source symbol.
-/

namespace Speicher

/-- Pointwise update of an embedded Go map: `m[k] = v`. -/
def mapUpd {V : Type} (m : String → Option V) (k : String) (v : V) :
    String → Option V :=
  fun q => if q = k then some v else m q

/-- Embedded Go `delete(m, k)`. -/
def mapDel {V : Type} (m : String → Option V) (k : String) :
    String → Option V :=
  fun q => if q = k then none else m q

/-- The transaction struct `memoryMapTx` of `state.go`.  `changes` embeds the
Go field `changes map[string]*T`: `changes k = none` means the key is not
staged, `changes k = some none` is a stored nil pointer (a tombstone staged
by `Delete`), and `changes k = some (some v)` is a staged upsert.  The two
flags embed `committed` and `rolledBack`. -/
structure MemoryMapTx (T : Type) where
  changes : String → Option (Option T)
  committed : Bool
  rolledBack : Bool

/-- A `memoryMap` (its `data` field) together with one transaction holding a
pointer to it, so that `Commit` can write through to the live table. -/
structure MapWithTx (T : Type) where
  data : String → Option T
  tx : MemoryMapTx T

/-- Source: `memoryMap.Begin` — a fresh transaction with an empty staged
table and both flags false. -/
def txBegin {T : Type} (data : String → Option T) : MapWithTx T :=
  ⟨data, ⟨fun _ => none, false, false⟩⟩

/-- Source: `memoryMap.Get` — returns `m.data[key]` and the `found` flag;
the Go pair (zero value, `false`) is embedded as `none`. -/
def mapGet {T : Type} (m : MapWithTx T) (key : String) : Option T :=
  m.data key

/-- Source: `memoryMap.Has` — key-presence test on the live table. -/
def mapHas {T : Type} (m : MapWithTx T) (key : String) : Bool :=
  (m.data key).isSome

/-- Source: `memoryMapTx.Set` — stages an upsert: `tx.changes[key] = &value`.
It writes only the staged table, never the live `data`. -/
def txSet {T : Type} (m : MapWithTx T) (key : String) (value : T) :
    MapWithTx T :=
  { m with tx := { m.tx with changes := mapUpd m.tx.changes key (some value) } }

/-- Source: `memoryMapTx.Delete` — stages a tombstone:
`tx.changes[key] = nil`. -/
def txDelete {T : Type} (m : MapWithTx T) (key : String) : MapWithTx T :=
  { m with tx := { m.tx with changes := mapUpd m.tx.changes key none } }

/-- Source: `memoryMapTx.Has` — the Go body is
`_, ok := tx.changes[key]; _, ok2 := tx.m.data[key]; return ok || ok2`:
presence of the key in either table, with no inspection of the stored
pointer, so a tombstoned key still counts as present. -/
def txHas {T : Type} (m : MapWithTx T) (key : String) : Bool :=
  (m.tx.changes key).isSome || (m.data key).isSome

/-- Source: `memoryMapTx.Get` — a staged entry is returned as-is (`found`
true even for a tombstone, whose value is the nil pointer `none`); a live
key not yet staged is materialized into the staged table; otherwise not
found.  Returns the updated state, the value pointer, and `found`. -/
def txGet {T : Type} (m : MapWithTx T) (key : String) :
    MapWithTx T × Option T × Bool :=
  match m.tx.changes key with
  | some v => (m, v, true)
  | none =>
    match m.data key with
    | some v =>
      ({ m with tx := { m.tx with changes := mapUpd m.tx.changes key (some v) } },
        some v, true)
    | none => (m, none, false)

/-- Source: `memoryMapTx.Commit` — a no-op if `committed || rolledBack`;
otherwise it marks the transaction committed, applies every staged entry to
the live table (nil pointer deletes, non-nil upserts) and discards the
staged table (`tx.changes = nil`, which reads as empty).  The Go loop visits
each staged key exactly once and distinct keys are independent, so its
result is this pointwise merge. -/
def txCommit {T : Type} (m : MapWithTx T) : MapWithTx T :=
  if m.tx.committed || m.tx.rolledBack then m
  else
    { data := fun k =>
        match m.tx.changes k with
        | some none => none
        | some (some v) => some v
        | none => m.data k,
      tx := { changes := fun _ => none, committed := true,
              rolledBack := m.tx.rolledBack } }

/-- Source: `memoryMapTx.Rollback` — sets `rolledBack = true`
unconditionally (there is no terminal-state check) and discards the staged
table; the live table is never touched. -/
def txRollback {T : Type} (m : MapWithTx T) : MapWithTx T :=
  { m with tx := { changes := fun _ => none, committed := m.tx.committed,
                   rolledBack := true } }

/-- Staging operations available on an open transaction, used to quantify
over arbitrary transaction histories. -/
inductive TxOp (T : Type) where
  | set (k : String) (v : T)
  | del (k : String)
  | get (k : String)

/-- Run one staging operation (for `get`, keep only its state effect). -/
def txApply {T : Type} (m : MapWithTx T) : TxOp T → MapWithTx T
  | .set k v => txSet m k v
  | .del k => txDelete m k
  | .get k => (txGet m k).1

/-- Run a list of staging operations in order. -/
def txApplyList {T : Type} (m : MapWithTx T) (ops : List (TxOp T)) :
    MapWithTx T :=
  ops.foldl txApply m

theorem txApply_data {T : Type} (m : MapWithTx T) (op : TxOp T) :
    (txApply m op).data = m.data := by
  cases op with
  | set k v => rfl
  | del k => rfl
  | get k =>
    show (txGet m k).1.data = m.data
    unfold txGet
    cases m.tx.changes k with
    | some v => rfl
    | none =>
      cases m.data k with
      | some v => rfl
      | none => rfl

theorem txApplyList_data {T : Type} (m : MapWithTx T) (ops : List (TxOp T)) :
    (txApplyList m ops).data = m.data := by
  induction ops generalizing m with
  | nil => rfl
  | cons op rest ih =>
    show (txApplyList (txApply m op) rest).data = m.data
    rw [ih, txApply_data]

/-- A concrete live table holding exactly the binding "a" to 1. -/
def liveA : String → Option Int :=
  fun q => if q = "a" then some 1 else none

/- ===== State lock coordinator (state.go, first part) ===== -/

/-- The four public operations of `State` that touch a store's mutex. -/
inductive LockOp where
  | lock
  | unlock
  | rlock
  | runlock
deriving DecidableEq

/-- The `lockState` record of `state.go`: per-store recursive counters of
one caller-local `State`. -/
structure LockCounts where
  readCount : Nat
  writeCount : Nat
deriving DecidableEq

/-- The caller's hold on the store's `sync.RWMutex`: no hold, a shared
(reader) hold, or the exclusive (writer) hold. -/
inductive Mux where
  | free
  | rd
  | wr
deriving DecidableEq

/-- Raw `mut.RLock()`: legal (for this caller) only when it holds nothing;
acquiring while already holding would be a residual-hold or self-deadlock
situation, modelled as illegal. -/
def muxRLock : Mux → Option Mux
  | .free => some .rd
  | _ => none

/-- Raw `mut.RUnlock()`: legal only when the caller holds the shared hold —
releasing a hold it does not have is a double release. -/
def muxRUnlock : Mux → Option Mux
  | .rd => some .free
  | _ => none

/-- Raw `mut.Lock()`: legal only from no hold. -/
def muxLock : Mux → Option Mux
  | .free => some .wr
  | _ => none

/-- Raw `mut.Unlock()`: legal only when the caller holds the exclusive
hold. -/
def muxUnlock : Mux → Option Mux
  | .wr => some .free
  | _ => none

/-- One step of the lock coordinator, translated clause by clause from
`State.Lock`, `State.Unlock`, `State.RLock` and `State.RUnlock` in
`state.go`, instrumented with the caller's mutex hold.  `none` means the
step either hit one of the two panic sites (`Unlock` with `writeCount`
already 0, `RUnlock` with `readCount` already 0) or performed an illegal
raw mutex operation. -/
def lockStep (ls : LockCounts) (mx : Mux) : LockOp → Option (LockCounts × Mux)
  | .lock =>
    if ls.writeCount > 0 then
      some ({ ls with writeCount := ls.writeCount + 1 }, mx)
    else
      (if ls.readCount > 0 then muxRUnlock mx else some mx).bind fun mx1 =>
        (muxLock mx1).map fun mx2 =>
          ({ ls with writeCount := ls.writeCount + 1 }, mx2)
  | .unlock =>
    if ls.writeCount = 0 then none
    else if ls.writeCount - 1 = 0 then
      (muxUnlock mx).bind fun mx1 =>
        (if ls.readCount > 0 then muxRLock mx1 else some mx1).map fun mx2 =>
          ({ ls with writeCount := ls.writeCount - 1 }, mx2)
    else some ({ ls with writeCount := ls.writeCount - 1 }, mx)
  | .rlock =>
    if ls.writeCount > 0 then
      some ({ ls with readCount := ls.readCount + 1 }, mx)
    else if ls.readCount = 0 then
      (muxRLock mx).map fun mx1 => ({ ls with readCount := ls.readCount + 1 }, mx1)
    else some ({ ls with readCount := ls.readCount + 1 }, mx)
  | .runlock =>
    if ls.readCount = 0 then none
    else if ls.readCount - 1 = 0 ∧ ls.writeCount = 0 then
      (muxRUnlock mx).map fun mx1 => ({ ls with readCount := ls.readCount - 1 }, mx1)
    else some ({ ls with readCount := ls.readCount - 1 }, mx)

/-- The counter-and-panic skeleton of the same four operations: exactly the
counter updates and the two panic sites of the source, with the mutex
erased.  A sequence is balanced when running this from zero counters
succeeds and returns to zero counters. -/
def countStep (ls : LockCounts) : LockOp → Option LockCounts
  | .lock => some { ls with writeCount := ls.writeCount + 1 }
  | .unlock =>
    if ls.writeCount = 0 then none
    else some { ls with writeCount := ls.writeCount - 1 }
  | .rlock => some { ls with readCount := ls.readCount + 1 }
  | .runlock =>
    if ls.readCount = 0 then none
    else some { ls with readCount := ls.readCount - 1 }

/-- Run a sequence of operations through the instrumented coordinator. -/
def lockRun : LockCounts → Mux → List LockOp → Option (LockCounts × Mux)
  | ls, mx, [] => some (ls, mx)
  | ls, mx, op :: rest =>
    match lockStep ls mx op with
    | none => none
    | some (ls1, mx1) => lockRun ls1 mx1 rest

/-- Run a sequence of operations through the counter skeleton. -/
def countRun : LockCounts → List LockOp → Option LockCounts
  | ls, [] => some ls
  | ls, op :: rest =>
    match countStep ls op with
    | none => none
    | some ls1 => countRun ls1 rest

/-- The mutex hold the coordinator maintains for given counters: exclusive
while write interest exists, shared while only read interest exists, free
otherwise. -/
def muxOf (ls : LockCounts) : Mux :=
  if ls.writeCount > 0 then .wr else if ls.readCount > 0 then .rd else .free

/-- Source: `State.HasReadLock` — true when either counter is positive. -/
def hasReadLock (ls : LockCounts) : Bool :=
  ls.readCount != 0 || ls.writeCount != 0

theorem lockStep_sim (rc wc : Nat) (op : LockOp) (ls' : LockCounts)
    (h : countStep ⟨rc, wc⟩ op = some ls') :
    lockStep ⟨rc, wc⟩ (muxOf ⟨rc, wc⟩) op = some (ls', muxOf ls') := by
  cases op with
  | lock =>
    have hls : ls' = ⟨rc, wc + 1⟩ := by
      simpa [countStep] using h.symm
    subst hls
    cases wc with
    | zero =>
      cases rc with
      | zero => simp [lockStep, muxOf, muxLock]
      | succ r => simp [lockStep, muxOf, muxRUnlock, muxLock]
    | succ w => simp [lockStep, muxOf]
  | unlock =>
    cases wc with
    | zero => simp [countStep] at h
    | succ w =>
      have hls : ls' = ⟨rc, w⟩ := by
        simpa [countStep] using h.symm
      subst hls
      cases w with
      | zero =>
        cases rc with
        | zero => simp [lockStep, muxOf, muxUnlock]
        | succ r => simp [lockStep, muxOf, muxUnlock, muxRLock]
      | succ w1 => simp [lockStep, muxOf]
  | rlock =>
    have hls : ls' = ⟨rc + 1, wc⟩ := by
      simpa [countStep] using h.symm
    subst hls
    cases wc with
    | zero =>
      cases rc with
      | zero => simp [lockStep, muxOf, muxRLock]
      | succ r => simp [lockStep, muxOf]
    | succ w => simp [lockStep, muxOf]
  | runlock =>
    cases rc with
    | zero => simp [countStep] at h
    | succ r =>
      have hls : ls' = ⟨r, wc⟩ := by
        simpa [countStep] using h.symm
      subst hls
      cases r with
      | zero =>
        cases wc with
        | zero => simp [lockStep, muxOf, muxRUnlock]
        | succ w => simp [lockStep, muxOf]
      | succ r1 =>
        cases wc with
        | zero => simp [lockStep, muxOf]
        | succ w => simp [lockStep, muxOf]

theorem lockRun_sim (ops : List LockOp) :
    ∀ (ls ls' : LockCounts), countRun ls ops = some ls' →
      lockRun ls (muxOf ls) ops = some (ls', muxOf ls') := by
  induction ops with
  | nil =>
    intro ls ls' h
    simp [countRun] at h
    subst h
    rfl
  | cons op rest ih =>
    intro ls ls' h
    rw [countRun] at h
    cases hc : countStep ls op with
    | none => rw [hc] at h; exact absurd h (by simp)
    | some ls1 =>
      rw [hc] at h
      obtain ⟨rc, wc⟩ := ls
      rw [lockRun, lockStep_sim rc wc op ls1 hc]
      exact ih ls1 ls' h

/-- C2.  Lock upgrade and balanced release.  First, the concrete upgrade
sequence `RLock; Lock; Unlock` from a fresh `State` ends with counters
(read 1, write 0), the mutex downgraded to the shared hold, and
`HasReadLock` true; the following `RUnlock` then leaves the mutex fully
released.  Second, every balanced caller-local sequence (the counter
skeleton runs without hitting a panic site and returns both counters to
zero) runs through the instrumented coordinator with every raw mutex
operation legal — so no double release ever happens — and ends with the
mutex free: released exactly once, no residual hold. -/
theorem lock_upgrade_balanced (ops : List LockOp)
    (hbal : countRun ⟨0, 0⟩ ops = some ⟨0, 0⟩) :
    (lockRun ⟨0, 0⟩ .free [.rlock, .lock, .unlock] = some (⟨1, 0⟩, .rd) ∧
      hasReadLock ⟨1, 0⟩ = true ∧
      lockRun ⟨0, 0⟩ .free [.rlock, .lock, .unlock, .runlock] =
        some (⟨0, 0⟩, .free)) ∧
    lockRun ⟨0, 0⟩ .free ops = some (⟨0, 0⟩, .free) := by
  refine ⟨⟨by decide, by decide, by decide⟩, ?_⟩
  have h := lockRun_sim ops ⟨0, 0⟩ ⟨0, 0⟩ hbal
  simpa [muxOf] using h

/-- Witness for C2 at the balanced upgrade sequence itself. -/
theorem lock_upgrade_balanced_witness :
    countRun ⟨0, 0⟩ [.rlock, .lock, .unlock, .runlock] = some ⟨0, 0⟩ ∧
    ((lockRun ⟨0, 0⟩ .free [.rlock, .lock, .unlock] = some (⟨1, 0⟩, .rd) ∧
        hasReadLock ⟨1, 0⟩ = true ∧
        lockRun ⟨0, 0⟩ .free [.rlock, .lock, .unlock, .runlock] =
          some (⟨0, 0⟩, .free)) ∧
      lockRun ⟨0, 0⟩ .free [.rlock, .lock, .unlock, .runlock] =
        some (⟨0, 0⟩, .free)) :=
  ⟨by decide,
    lock_upgrade_balanced [.rlock, .lock, .unlock, .runlock] (by decide)⟩

/- ===== Clone engine type check (clone/clone.go) ===== -/

mutual

/-- Go types as seen by the clone engine's `reflect` dispatch, at the
structural level it branches on. -/
inductive GoType where
  | intT
  | strT
  | ptrT (t : GoType)
  | sliceT (t : GoType)
  | structT (fields : GoTypeList)

/-- The field types of a struct type. -/
inductive GoTypeList where
  | nil
  | cons (head : GoType) (tail : GoTypeList)

end

deriving instance DecidableEq for GoType

deriving instance DecidableEq for GoTypeList

/-- Dynamic Go values presented to the copy function.  A pointer carries
its pointee type and `none` for nil; a slice carries its element type and
`none` for the nil slice (distinct from the empty one). -/
inductive GoVal where
  | intV (n : Int)
  | strV (s : String)
  | ptrV (t : GoType) (v : Option GoVal)
  | sliceV (t : GoType) (v : Option (List GoVal))
  | structV (fields : List GoVal)

mutual

/-- The `reflect.ValueOf(src).Type()` of a dynamic value. -/
def goTypeOf : GoVal → GoType
  | .intV _ => .intT
  | .strV _ => .strT
  | .ptrV t _ => .ptrT t
  | .sliceV t _ => .sliceT t
  | .structV fs => .structT (goTypeOfList fs)

/-- Types of a field list. -/
def goTypeOfList : List GoVal → GoTypeList
  | [] => .nil
  | v :: vs => .cons (goTypeOf v) (goTypeOfList vs)

end

mutual

/-- Byte size of a type under Go's amd64 layout, for the modelled
fragment: `int` is 8 bytes, a string header 16, a pointer 8, a slice
header 24, and a struct the sum of its fields — exact here, since every
field size is a multiple of 8 and every field alignment is 8, so the
layout inserts no padding. -/
def goSize : GoType → Nat
  | .intT => 8
  | .strT => 16
  | .ptrT _ => 8
  | .sliceT _ => 24
  | .structT fs => goSizeList fs

/-- Sum of the field sizes of a struct type. -/
def goSizeList : GoTypeList → Nat
  | .nil => 0
  | .cons t ts => goSize t + goSizeList ts

end

mutual

/-- Source: `needsDeepCopy` of `clone/clone.go` — pointers and slices
(reference kinds) need a fixup, a struct needs one when some field does,
and scalar kinds (including strings, which fall to the default case) do
not. -/
def needsDeepCopy : GoType → Bool
  | .ptrT _ => true
  | .sliceT _ => true
  | .structT fs => needsDeepCopyList fs
  | .intT => false
  | .strT => false

/-- Whether any field of a struct type needs a fixup. -/
def needsDeepCopyList : GoTypeList → Bool
  | .nil => false
  | .cons t ts => needsDeepCopy t || needsDeepCopyList ts

end

mutual

/-- Source: `deepCopy` of `clone/clone.go`, at the structural level:
scalars are returned as-is; a nil pointer stays nil, a non-nil pointer
gets a fresh allocation with a recursive copy of the pointee; a nil slice
stays nil, a non-nil slice gets fresh backing with element-wise recursive
copies; a struct goes through `copyStruct`.  `none` is a panic escaping
from the struct copy below. -/
def deepCopy : GoVal → Option GoVal
  | .intV n => some (.intV n)
  | .strV s => some (.strV s)
  | .ptrV t none => some (.ptrV t none)
  | .ptrV t (some v) =>
    match deepCopy v with
    | some c => some (.ptrV t (some c))
    | none => none
  | .sliceV t none => some (.sliceV t none)
  | .sliceV t (some es) =>
    match deepCopyList es with
    | some cs => some (.sliceV t (some cs))
    | none => none
  | .structV fs => copyStruct fs

/-- Source: `copyStruct` of `clone/clone.go` — it first bulk-copies the
struct's memory through `copyStructMemory`, whose
`copy((*[1024]byte)(dstPtr)[:size], ...)` slices a 1024-byte array
pointer by the struct's size and therefore panics ("slice bounds out of
range") whenever that size exceeds 1024 bytes; when the memory copy
survives, the fixup loop re-copies exactly the fields whose type needs a
deep copy and keeps the bulk-copied value for the rest (exported and
unexported fields behave alike at this level). -/
def copyStruct (fs : List GoVal) : Option GoVal :=
  if 1024 < goSizeList (goTypeOfList fs) then none
  else
    match copyStructFields fs with
    | some cs => some (.structV cs)
    | none => none

/-- The fixup loop of `copyStruct`: recurse into the fields whose type
needs a deep copy, keep the others as the memory copy left them. -/
def copyStructFields : List GoVal → Option (List GoVal)
  | [] => some []
  | v :: vs =>
    match (if needsDeepCopy (goTypeOf v) then deepCopy v else some v),
        copyStructFields vs with
    | some c, some cs => some (c :: cs)
    | _, _ => none

/-- Element-wise deep copy of slice elements. -/
def deepCopyList : List GoVal → Option (List GoVal)
  | [] => some []
  | v :: vs =>
    match deepCopy v, deepCopyList vs with
    | some c, some cs => some (c :: cs)
    | _, _ => none

end

mutual

/-- The values on which `deepCopy`'s traversal reaches a struct larger
than 1024 bytes: through the top value, a non-nil pointee, the elements
of a non-nil slice, and exactly those struct fields the fixup loop
re-copies. -/
def hasBigStruct : GoVal → Bool
  | .intV _ => false
  | .strV _ => false
  | .ptrV _ none => false
  | .ptrV _ (some v) => hasBigStruct v
  | .sliceV _ none => false
  | .sliceV _ (some es) => hasBigStructList es
  | .structV fs =>
    if 1024 < goSizeList (goTypeOfList fs) then true
    else hasBigStructFields fs

/-- Oversized-struct reachability through the fixup loop's fields. -/
def hasBigStructFields : List GoVal → Bool
  | [] => false
  | v :: vs =>
    (needsDeepCopy (goTypeOf v) && hasBigStruct v) || hasBigStructFields vs

/-- Oversized-struct reachability through slice elements. -/
def hasBigStructList : List GoVal → Bool
  | [] => false
  | v :: vs => hasBigStruct v || hasBigStructList vs

end

/-- Source: the closure returned by `clone.CopyConstructor` — it first
compares the dynamic type of the presented value against the type the
copier was built for and terminates fatally on a mismatch; otherwise it
runs the deep copy, whose own panic (the oversized-struct memory copy)
also escapes fatally. -/
def copyConstructor (proto : GoType) (src : GoVal) : Option GoVal :=
  if goTypeOf src = proto then deepCopy src else none

/- ===== List store (list.go) ===== -/

/-- Error result of `memoryList.Set` on an out-of-bounds index. -/
inductive ListErr where
  | indexOutOfRange
deriving DecidableEq

/-- Source: `memoryList.Get` — `if index >= 0 && index < len(l.data)` then
the element `l.data[index]` with found true, else the zero value with
found false; the out-of-range branch never indexes, so the function is
total over all integer indices. -/
def listGet {T : Type} (data : List T) (index : Int) : Option T :=
  if 0 ≤ index ∧ index < (data.length : Int) then data[index.toNat]? else none

/-- Source: `memoryList.Append` — `l.data = append(l.data, value)`: the
argument itself is appended. -/
def listAppend {T : Type} (data : List T) (value : T) : List T :=
  data ++ [value]

/-- Source: `memoryList.Set` — out-of-bounds indices produce the returned
error "index out of range"; otherwise the argument itself is stored at the
index. -/
def listSet {T : Type} (data : List T) (index : Int) (value : T) :
    Except ListErr (List T) :=
  if index < 0 ∨ (data.length : Int) ≤ index then .error .indexOutOfRange
  else .ok (data.set index.toNat value)

/-- Source: `memoryList.Find` — first element satisfying the predicate, in
order. -/
def listFind {T : Type} (data : List T) (p : T → Bool) : Option T :=
  data.find? p

/-- Source: `memoryList.FindAll` — all elements satisfying the predicate,
in order. -/
def listFindAll {T : Type} (data : List T) (p : T → Bool) : List T :=
  data.filter p

/-- Source: `memoryList.Len`. -/
def listLen {T : Type} (data : List T) : Nat :=
  data.length

/-- C3 counterexample.  For a pointer-typed element, sharing mutable
backing storage is having the same address; addresses are modelled as
naturals.  The store holds the single address 0; `Get 0` hands the caller
exactly that address, so the caller-held value and the store's internal
entry are the same allocation — refuting "outbound operations return deep
copies".  Inbound, `Append` stores the caller's address itself — refuting
"inbound operations store deep copies".  No clone is interposed anywhere
in `list.go`. -/
theorem list_clone_counterexample :
    listGet ([0] : List Nat) 0 = some 0 ∧ (0 : Nat) ∈ ([0] : List Nat) ∧
    listAppend ([] : List Nat) 0 = [0] ∧
    (0 : Nat) ∈ listAppend ([] : List Nat) 0 := by
  refine ⟨?_, by decide, rfl, by decide⟩
  rfl

/-- C3 amended: values cross the List store boundary unchanged — `Get`,
`Find` and `FindAll` return the stored elements themselves, `Append`
appends the caller's argument itself, and an in-range `Set` stores the
caller's argument itself; the Clone Engine is not invoked by any List
operation, so a pointer-typed value is shared between caller and store in
both directions. -/
theorem list_no_clone_amended {T : Type} (data : List T) (index : Int)
    (p : T → Bool) (v w : T) (hget : listGet data index = some v) :
    v ∈ data ∧
    listAppend data w = data ++ [w] ∧
    (∀ u, listFind data p = some u → u ∈ data) ∧
    (∀ u, u ∈ listFindAll data p → u ∈ data) ∧
    (∀ out, listSet data index w = Except.ok out →
      out[index.toNat]? = some w) := by
  refine ⟨?_, rfl, ?_, ?_, ?_⟩
  · unfold listGet at hget
    split at hget
    · exact List.getElem?_mem hget
    · exact absurd hget (by simp)
  · intro u hu
    exact List.mem_of_find?_eq_some hu
  · intro u hu
    exact List.mem_of_mem_filter hu
  · intro out hout
    unfold listSet at hout
    split at hout
    · exact absurd hout (by simp)
    · rename_i hrange
      have hok : out = data.set index.toNat w := by
        simpa using hout.symm
      subst hok
      have hlt : index.toNat < data.length := by omega
      simp [List.getElem?_set_self, hlt]

/-- Witness for the amended C3 at a one-element store. -/
theorem list_no_clone_amended_witness :
    listGet ([5] : List Int) 0 = some 5 ∧
    ((5 : Int) ∈ ([5] : List Int) ∧
      listAppend ([5] : List Int) 7 = [5] ++ [7] ∧
      (∀ u, listFind ([5] : List Int) (fun x => x == 5) = some u →
        u ∈ ([5] : List Int)) ∧
      (∀ u, u ∈ listFindAll ([5] : List Int) (fun x => x == 5) →
        u ∈ ([5] : List Int)) ∧
      (∀ out, listSet ([5] : List Int) 0 7 = Except.ok out →
        out[(0 : Int).toNat]? = some 7)) :=
  ⟨rfl, list_no_clone_amended [5] 0 (fun x => x == 5) 5 7 rfl⟩

/-- C10.  `memoryList.Get` is total over all integer indices: it agrees
with guarded indexing (and is `none` on every negative index), and it is
`some` exactly when the index is in range — in which case the returned
element is the list's entry at that index. -/
theorem list_get_total {T : Type} (data : List T) (index : Int) :
    (listGet data index =
      if 0 ≤ index then data[index.toNat]? else none) ∧
    ((listGet data index).isSome ↔
      0 ≤ index ∧ index < (data.length : Int)) := by
  unfold listGet
  by_cases h : 0 ≤ index ∧ index < (data.length : Int)
  · rw [if_pos h, if_pos h.1]
    refine ⟨rfl, ?_⟩
    have hlt : index.toNat < data.length := by omega
    simp [List.getElem?_eq_getElem hlt, h]
  · rw [if_neg h]
    refine ⟨?_, by simp [h]⟩
    by_cases h0 : 0 ≤ index
    · rw [if_pos h0]
      have hge : data.length ≤ index.toNat := by omega
      simp [List.getElem?_eq_none hge]
    · rw [if_neg h0]

/- ===== Loading from disk (state.go, list.go) ===== -/

/-- Outcome of the two external calls of the JSON loaders — `os.Open`
followed by a JSON decode: the file may not exist, open may fail for some
other reason, the decoder may fail, or decoding succeeds with the decoded
contents. -/
inductive OpenOutcome (D : Type) where
  | notExist
  | openFailed
  | decodeFailed
  | decoded (data : D)

/-- Whether the outcome is the missing-file one. -/
def OpenOutcome.isMissing {D : Type} : OpenOutcome D → Bool
  | .notExist => true
  | _ => false

/-- Embeds `strings.HasSuffix(location, ".json")` at the character level. -/
def hasJsonSuffix (location : String) : Bool :=
  (".json".data).isSuffixOf location.data

/-- Pure Boolean success test on an `Except`. -/
def exceptOk {E A : Type} : Except E A → Bool
  | .ok _ => true
  | .error _ => false

/-- Error kinds a loader can return (the Go code wraps them with the file
path; only the kind matters here). -/
inductive LoadErr where
  | mkdirFailed
  | openFailed
  | decodeFailed
  | noLoader
deriving DecidableEq

/-- Source: `loadMapFromJsonFile` — the Go pair (store, err).  On a
missing file it creates the containing directory and returns the fresh
empty store together with the mkdir result; any other open failure or a
decode failure returns no store and an error; a successful decode returns
the decoded table with no error. -/
def loadMapFromJsonFile (T : Type)
    (outcome : OpenOutcome (String → Option T)) (mkdirOk : Bool) :
    Option (String → Option T) × Option LoadErr :=
  match outcome with
  | .notExist =>
    (some (fun _ => none), if mkdirOk then none else some .mkdirFailed)
  | .openFailed => (none, some .openFailed)
  | .decodeFailed => (none, some .decodeFailed)
  | .decoded d => (some d, none)

/-- Source: `loadListFromJsonFile` — same shape over a slice, whose fresh
value is the empty slice `make([]T, 0)`. -/
def loadListFromJsonFile (T : Type) (outcome : OpenOutcome (List T))
    (mkdirOk : Bool) : Option (List T) × Option LoadErr :=
  match outcome with
  | .notExist => (some [], if mkdirOk then none else some .mkdirFailed)
  | .openFailed => (none, some .openFailed)
  | .decodeFailed => (none, some .decodeFailed)
  | .decoded d => (some d, none)

/-- Source: `LoadMap` — requires the ".json" suffix, then turns the inner
(store, err) pair into one result: a non-nil inner error is returned
(wrapped) with no store, otherwise the store is returned.  The fallback
default of `getD` is never reached: the inner pair carries a store
whenever its error is nil. -/
def LoadMapE (T : Type) (location : String)
    (outcome : OpenOutcome (String → Option T)) (mkdirOk : Bool) :
    Except LoadErr (String → Option T) :=
  if hasJsonSuffix location then
    match loadMapFromJsonFile T outcome mkdirOk with
    | (_, some e) => .error e
    | (m, none) => .ok (m.getD (fun _ => none))
  else .error .noLoader

/-- Source: `LoadList` — same shape over `loadListFromJsonFile`. -/
def LoadListE (T : Type) (location : String)
    (outcome : OpenOutcome (List T)) (mkdirOk : Bool) :
    Except LoadErr (List T) :=
  if hasJsonSuffix location then
    match loadListFromJsonFile T outcome mkdirOk with
    | (_, some e) => .error e
    | (l, none) => .ok (l.getD [])
  else .error .noLoader

/-- A concrete decoded-but-empty table, as produced by a present file
containing the empty JSON object. -/
def emptyIntTable : String → Option Int := fun _ => none

/-- C9 counterexample: a present ".json" file whose contents decode to the
empty object loads successfully into an empty store, although the file was
not absent — refuting "the freshly loaded state is empty exactly when the
file was absent" (the forward direction of that equivalence). -/
theorem load_empty_counterexample :
    LoadMapE Int "x.json" (OpenOutcome.decoded emptyIntTable) true =
      Except.ok emptyIntTable ∧
    (OpenOutcome.decoded emptyIntTable).isMissing = false := by
  constructor <;> rfl

/-- C9 amended: on a ".json" path, a missing file is not an error — the
store loads empty (and the containing directory is created; if that
creation fails the failure is returned), while any other open failure or a
decode failure is returned as an error with no store; the freshly loaded
state is empty whenever the file was absent (a present file may also
decode to an empty store). -/
theorem load_missing_amended (T : Type) (loc : String)
    (hjson : hasJsonSuffix loc = true) :
    LoadMapE T loc .notExist true = Except.ok (fun _ => none) ∧
    LoadListE T loc .notExist true = Except.ok [] ∧
    exceptOk (LoadMapE T loc .notExist false) = false ∧
    exceptOk (LoadMapE T loc .openFailed true) = false ∧
    exceptOk (LoadMapE T loc .decodeFailed true) = false ∧
    exceptOk (LoadListE T loc .openFailed true) = false ∧
    exceptOk (LoadListE T loc .decodeFailed true) = false := by
  refine ⟨?_, ?_, ?_, ?_, ?_, ?_, ?_⟩ <;>
    simp [LoadMapE, LoadListE, loadMapFromJsonFile, loadListFromJsonFile,
      hjson, exceptOk]

/-- Witness for the amended C9 at the path "x.json" with integer values. -/
theorem load_missing_amended_witness :
    hasJsonSuffix "x.json" = true ∧
    (LoadMapE Int "x.json" .notExist true = Except.ok (fun _ => none) ∧
      LoadListE Int "x.json" .notExist true = Except.ok [] ∧
      exceptOk (LoadMapE Int "x.json" .notExist false) = false ∧
      exceptOk (LoadMapE Int "x.json" .openFailed true) = false ∧
      exceptOk (LoadMapE Int "x.json" .decodeFailed true) = false ∧
      exceptOk (LoadListE Int "x.json" .openFailed true) = false ∧
      exceptOk (LoadListE Int "x.json" .decodeFailed true) = false) :=
  ⟨rfl, load_missing_amended Int "x.json" rfl⟩

mutual

theorem deepCopy_isSome : ∀ v : GoVal, (deepCopy v).isSome = !hasBigStruct v
  | .intV n => by simp [deepCopy, hasBigStruct]
  | .strV s => by simp [deepCopy, hasBigStruct]
  | .ptrV t none => by simp [deepCopy, hasBigStruct]
  | .ptrV t (some v) => by
    have ih := deepCopy_isSome v
    simp only [deepCopy, hasBigStruct]
    cases h : deepCopy v <;> rw [h] at ih <;> simp_all
  | .sliceV t none => by simp [deepCopy, hasBigStruct]
  | .sliceV t (some es) => by
    have ih := deepCopyList_isSome es
    simp only [deepCopy, hasBigStruct]
    cases h : deepCopyList es <;> rw [h] at ih <;> simp_all
  | .structV fs => by
    have ih := copyStructFields_isSome fs
    simp only [deepCopy, copyStruct, hasBigStruct]
    split
    · simp
    · cases h : copyStructFields fs <;> rw [h] at ih <;> simp_all

theorem copyStructFields_isSome :
    ∀ vs : List GoVal, (copyStructFields vs).isSome = !hasBigStructFields vs
  | [] => by simp [copyStructFields, hasBigStructFields]
  | v :: vs => by
    have ih2 := copyStructFields_isSome vs
    simp only [copyStructFields, hasBigStructFields]
    cases hn : needsDeepCopy (goTypeOf v) with
    | false =>
      simp only [hn, if_neg Bool.false_ne_true]
      cases h2 : copyStructFields vs <;> rw [h2] at ih2 <;> simp_all
    | true =>
      have ih1 := deepCopy_isSome v
      simp only [hn, if_pos rfl]
      cases h1 : deepCopy v <;> rw [h1] at ih1 <;>
        cases h2 : copyStructFields vs <;> rw [h2] at ih2 <;> simp_all

theorem deepCopyList_isSome :
    ∀ vs : List GoVal, (deepCopyList vs).isSome = !hasBigStructList vs
  | [] => by simp [deepCopyList, hasBigStructList]
  | v :: vs => by
    have ih1 := deepCopy_isSome v
    have ih2 := deepCopyList_isSome vs
    simp only [deepCopyList, hasBigStructList]
    cases h1 : deepCopy v <;> rw [h1] at ih1 <;>
      cases h2 : deepCopyList vs <;> rw [h2] at ih2 <;> simp_all

end

/-- A struct type of n consecutive int fields. -/
def repIntFields : Nat → GoTypeList
  | 0 => .nil
  | n + 1 => .cons .intT (repIntFields n)

/-- The zero values of n int fields. -/
def repIntVals : Nat → List GoVal
  | 0 => []
  | n + 1 => .intV 0 :: repIntVals n

/-- A struct type of 129 int fields — 129 * 8 = 1032 bytes, past the
1024-byte array the raw-memory copy helper slices. -/
def bigTy : GoType := .structT (repIntFields 129)

/-- A type-correct value of that struct type. -/
def bigVal : GoVal := .structV (repIntVals 129)

theorem goTypeOfList_repIntVals (n : Nat) :
    goTypeOfList (repIntVals n) = repIntFields n := by
  induction n with
  | zero => rfl
  | succ k ih => simp [repIntVals, repIntFields, goTypeOfList, goTypeOf, ih]

theorem goSizeList_repIntFields (n : Nat) :
    goSizeList (repIntFields n) = 8 * n := by
  induction n with
  | zero => rfl
  | succ k ih =>
    simp only [repIntFields, goSizeList, goSize, ih]
    omega

/-- C8 counterexample: present the clone copy-function a type-correct
struct of 129 int fields (1032 bytes) — no type mismatch, no lock misuse
anywhere — and it still terminates fatally: `copyStruct` always runs
`copyStructMemory`, whose `(*[1024]byte)(dstPtr)[:size]` slices a
1024-byte array pointer by 1032.  This refutes "in every other case these
operations do not panic". -/
theorem clone_big_struct_counterexample :
    goTypeOf bigVal = bigTy ∧ copyConstructor bigTy bigVal = none := by
  have hty : goTypeOf bigVal = bigTy := by
    show GoType.structT (goTypeOfList (repIntVals 129)) = bigTy
    rw [goTypeOfList_repIntVals]
    rfl
  refine ⟨hty, ?_⟩
  have hbig : 1024 < 8 * 129 := by norm_num
  simp [copyConstructor, if_pos hty, bigVal, deepCopy, copyStruct,
    goTypeOfList_repIntVals, goSizeList_repIntFields, hbig]

/-- C8 amended.  Misuse is fatal, never a returned error: `State.Unlock`
hits its panic site exactly when the write counter is already 0,
`State.RUnlock` exactly when the read counter is already 0, and
`Lock`/`RLock` never panic.  The clone copy-function terminates fatally
on a type mismatch — but also on a type-correct value whenever its
traversal reaches a struct larger than 1024 bytes, the limit of the
raw-memory copy helper; it returns normally exactly when the type matches
and no such struct is reached.  None of these operations has an error
return channel. -/
theorem misuse_fatal_amended :
    (∀ ls : LockCounts,
        (countStep ls .unlock = none ↔ ls.writeCount = 0) ∧
        (countStep ls .runlock = none ↔ ls.readCount = 0) ∧
        (countStep ls .lock).isSome = true ∧
        (countStep ls .rlock).isSome = true) ∧
    (∀ (proto : GoType) (src : GoVal),
        (copyConstructor proto src).isSome = true ↔
          goTypeOf src = proto ∧ hasBigStruct src = false) := by
  constructor
  · intro ls
    refine ⟨?_, ?_, rfl, rfl⟩ <;> simp only [countStep] <;> split <;> simp_all
  · intro proto src
    simp only [copyConstructor]
    split
    · rename_i h
      rw [deepCopy_isSome]
      cases hb : hasBigStruct src <;> simp [h, hb]
    · rename_i h
      simp [h]

/-- C1.  Transaction isolation: with `live k = some v0`, after
`txSet (txBegin live) k v1` the live table is exactly unchanged (so the
live `Get k` still observes `v0`), and after `Commit` the live `Get k`
observes `v1`: staged changes are invisible to readers of the live store
until Commit applies them. -/
theorem tx_isolation {T : Type} (live : String → Option T) (k : String)
    (v0 v1 : T) (h : live k = some v0) :
    (txSet (txBegin live) k v1).data = live ∧
    mapGet (txSet (txBegin live) k v1) k = some v0 ∧
    mapGet (txCommit (txSet (txBegin live) k v1)) k = some v1 := by
  refine ⟨rfl, h, ?_⟩
  show (txCommit (txSet (txBegin live) k v1)).data k = some v1
  simp [txCommit, txSet, txBegin, mapUpd]

/-- Witness for C1: the map holds "a" to 1; inside the transaction the live
map still reads 1, after Commit it reads 2. -/
theorem tx_isolation_witness :
    liveA "a" = some 1 ∧
    ((txSet (txBegin liveA) "a" 2).data = liveA ∧
      mapGet (txSet (txBegin liveA) "a" 2) "a" = some 1 ∧
      mapGet (txCommit (txSet (txBegin liveA) "a" 2)) "a" = some 2) :=
  ⟨by decide, tx_isolation liveA "a" 1 2 (by decide)⟩

/-- C4 evaluation at the failing input: the map holds "a" to 1 and the
transaction stages `Delete ("a")`.  `memoryMapTx.Has` then returns `true`
— it tests only key presence in the staged table and the live table,
ignoring the tombstone — although the claim and the spec say it must be
`false`.  The post-commit half of the claim does hold: after Commit the
live map no longer has "a". -/
theorem tx_delete_has_eval :
    txHas (txDelete (txBegin liveA) "a") "a" = true ∧
    mapHas (txCommit (txDelete (txBegin liveA) "a")) "a" = false := by
  constructor
  · decide
  · show ((txCommit (txDelete (txBegin liveA) "a")).data "a").isSome = false
    simp [txCommit, txDelete, txBegin, mapUpd]

/-- C5 counterexample: Commit the transaction, then call Rollback.
`memoryMapTx.Rollback` sets `rolledBack = true` unconditionally, so both
one-shot flags end up true — refuting "at most one of the two flags ever
becomes true" and "a Rollback called after Commit does not set the
rolled-back flag". -/
theorem tx_flags_counterexample :
    (txRollback (txCommit (txSet (txBegin liveA) "a" 2))).tx.committed = true ∧
    (txRollback (txCommit (txSet (txBegin liveA) "a" 2))).tx.rolledBack = true := by
  constructor <;> rfl

/-- C5 amended: `committed` is one-shot — once either flag is true, Commit
is a no-op; Rollback always sets the rolled-back flag, even after Commit
(so both flags can be true), while preserving `committed` and never
touching the live table. -/
theorem tx_flags_amended {T : Type} (m : MapWithTx T)
    (h : m.tx.committed = true ∨ m.tx.rolledBack = true) :
    txCommit m = m ∧
    (txRollback m).tx.rolledBack = true ∧
    (txRollback m).tx.committed = m.tx.committed ∧
    (txRollback m).data = m.data := by
  refine ⟨?_, rfl, rfl, rfl⟩
  unfold txCommit
  rcases h with h | h <;> simp [h]

/-- Witness for the amended C5: the amended statement applied at a
committed transaction. -/
theorem tx_flags_amended_witness :
    ((txCommit (txSet (txBegin liveA) "a" 2)).tx.committed = true ∨
      (txCommit (txSet (txBegin liveA) "a" 2)).tx.rolledBack = true) ∧
    txCommit (txCommit (txSet (txBegin liveA) "a" 2)) =
        txCommit (txSet (txBegin liveA) "a" 2) ∧
    (txRollback (txCommit (txSet (txBegin liveA) "a" 2))).tx.rolledBack = true ∧
    (txRollback (txCommit (txSet (txBegin liveA) "a" 2))).tx.committed =
        (txCommit (txSet (txBegin liveA) "a" 2)).tx.committed ∧
    (txRollback (txCommit (txSet (txBegin liveA) "a" 2))).data =
        (txCommit (txSet (txBegin liveA) "a" 2)).data :=
  ⟨Or.inl rfl,
    tx_flags_amended (txCommit (txSet (txBegin liveA) "a" 2)) (Or.inl rfl)⟩

/-- C6.  Rollback atomicity: a transaction that stages any sequence of
operations and is then only rolled back leaves the live table exactly
unchanged, and a Commit issued after the Rollback is a no-op, changing
neither the live map nor the transaction. -/
theorem tx_rollback_atomic {T : Type} (live : String → Option T)
    (ops : List (TxOp T)) :
    (txRollback (txApplyList (txBegin live) ops)).data = live ∧
    txCommit (txRollback (txApplyList (txBegin live) ops)) =
      txRollback (txApplyList (txBegin live) ops) := by
  constructor
  · show (txApplyList (txBegin live) ops).data = live
    rw [txApplyList_data]
    rfl
  · unfold txCommit
    simp [txRollback]

end Speicher
